import Mathlib

/-!
# Verification of the asutils bundle/skill/agent installer core

A shallow embedding of the catalog, bundle-resolution, installation and
removal logic of `src/asutils/claude/skill.py` and
`src/asutils/claude/agents/cli.py`.

The filesystem is modelled explicitly: a flat directory is a list of files
in listing order, and a directory path whose `exists()` may be false is an
`Option Dir`.  Python dicts built by the `skills[f.stem] = f` loops are
modelled as insertion-ordered association lists with last-assignment-wins
update.  The external `yaml.safe_load` collaborator is abstracted as a
function argument returning either a parsed string mapping or a parse
error; `rich` output is modelled as the list of printed message strings and
`typer.Exit` as the exit code of the command result.
-/

set_option autoImplicit false

namespace Asutils

/-- A file in a flat directory: base name (Python `Path.stem`), extension
(Python `Path.suffix`, dot included) and text content. -/
structure File where
  stem : String
  ext : String
  content : String
deriving Repr, DecidableEq

/-- A flat directory: the files it holds, in listing order. -/
abbrev Dir := List File

/-- A Python dict with string keys, as an insertion-ordered association
list.  All dicts in the embedded code are built from `[]` by `dictInsert`,
so keys are unique. -/
abbrev Dict (α : Type) := List (String × α)

/-- Python dict assignment `d[k] = v`: replace the value at an existing key
in place, otherwise append the new binding at the end. -/
def dictInsert {α : Type} (l : Dict α) (k : String) (v : α) : Dict α :=
  match l with
  | [] => [(k, v)]
  | p :: rest => if p.1 = k then (k, v) :: rest else p :: dictInsert rest k v

/-- Python dict lookup `d[k]` / `d.get(k)`. -/
def dictLookup {α : Type} (l : Dict α) (k : String) : Option α :=
  match l with
  | [] => none
  | p :: rest => if p.1 = k then some p.2 else dictLookup rest k

/-- Python `k in d`. -/
def dictMem {α : Type} (l : Dict α) (k : String) : Bool :=
  (dictLookup l k).isSome

/-- Python `list(d.keys())`. -/
def dictKeys {α : Type} (l : Dict α) : List String :=
  l.map Prod.fst

/-- Python `str.startswith(pre)`. -/
def pyStartsWith (s pre : String) : Bool :=
  pre.data.isPrefixOf s.data

/-- The characters after the first occurrence of `c`. -/
def afterChar (c : Char) : List Char → List Char
  | [] => []
  | a :: as => if a = c then as else afterChar c as

/-- Python `s.split("/", 1)[1]`, used to strip a namespace from a name that
is known to contain a slash. -/
def afterFirstSlash (s : String) : String :=
  String.mk (afterChar '/' s.data)

/-- Python `s[:n]`. -/
def pyTake (n : Nat) (s : String) : String :=
  String.mk (s.data.take n)

/-- Python `len(s)`. -/
def pyLen (s : String) : Nat :=
  s.data.length

/-- The text before and after the first occurrence of `sep`, or `none` when
`sep` does not occur (`sep` is nonempty in all uses). -/
def splitOnce (sep : List Char) : List Char → Option (List Char × List Char)
  | [] => none
  | c :: rest =>
    if sep.isPrefixOf (c :: rest) then some ([], (c :: rest).drop sep.length)
    else
      match splitOnce sep rest with
      | none => none
      | some (a, b) => some (c :: a, b)

/-- Python `content.split(sep, 2)`: at most three parts. -/
def pySplit2 (sep : String) (s : String) : List String :=
  match splitOnce sep.data s.data with
  | none => [s]
  | some (a, r) =>
    match splitOnce sep.data r with
    | none => [String.mk a, String.mk r]
    | some (b, r2) => [String.mk a, String.mk b, String.mk r2]

/-- Lexicographic order on code points, as Python string `<=` used by
`sorted`. -/
def charListLe : List Char → List Char → Bool
  | [], _ => true
  | _ :: _, [] => false
  | a :: as, b :: bs => if a = b then charListLe as bs else decide (a < b)

/-- Insert one element into a list sorted by `le`. -/
def insertSorted {α : Type} (le : α → α → Bool) (a : α) : List α → List α
  | [] => [a]
  | b :: bs => if le a b then a :: b :: bs else b :: insertSorted le a bs

/-- Insertion sort by `le`. -/
def sortBy {α : Type} (le : α → α → Bool) : List α → List α
  | [] => []
  | a :: as => insertSorted le a (sortBy le as)

/-- Python `sorted(d.items())`: dict entries ordered by key (keys are
unique, so the comparison never reaches the values). -/
def pySortedItems {α : Type} (d : Dict α) : Dict α :=
  sortBy (fun p q => charListLe p.1.data q.1.data) d

/-- Model of `dir.glob("*" ++ ext)` on an optional directory: a missing directory
yields no files, otherwise the files with the given extension, in listing
order (no recursion into subdirectories). -/
def globExt (d : Option Dir) (ext : String) : List File :=
  match d with
  | none => []
  | some fs => fs.filter (fun f => decide (f.ext = ext))

/-- The `for f in dir.glob(...): d[f.stem] = f` loop body shared by every
catalog scan. -/
def dictOfFiles (init : Dict File) (fs : List File) : Dict File :=
  fs.foldl (fun acc f => dictInsert acc f.stem f) init

/-- Model of `target.exists()` for the file `stem ++ ext` in a directory. -/
def dirHasFile (fs : Dir) (stem ext : String) : Bool :=
  fs.any (fun f => decide (f.stem = stem) && decide (f.ext = ext))

/-- Model of `target.write_text(content)`: overwrite the file `stem ++ ext` in
place, or create it. -/
def dirWrite (fs : Dir) (stem ext content : String) : Dir :=
  match fs with
  | [] => [⟨stem, ext, content⟩]
  | f :: rest =>
    if f.stem = stem ∧ f.ext = ext then ⟨stem, ext, content⟩ :: rest
    else f :: dirWrite rest stem ext content

/-- Model of `path.unlink()`: delete the file `stem ++ ext`. -/
def dirUnlink (fs : Dir) (stem ext : String) : Dir :=
  fs.filter (fun f => !(decide (f.stem = stem) && decide (f.ext = ext)))

/-- Model of `path.mkdir(parents=True, exist_ok=True)`: a missing directory becomes
an empty one. -/
def mkdirP (d : Option Dir) : Dir :=
  d.getD []

/-- The external `yaml.safe_load` collaborator, abstracted: it returns the
parsed frontmatter as a string-to-string mapping, or a parse error. -/
abbrev YamlLoad := String → Except String (Dict String)

/-- Python `config.get(k, d)` on a parsed YAML mapping. -/
def cfgGet (c : Dict String) (k d : String) : String :=
  (dictLookup c k).getD d

/-! ## skill.py -/

/-- The five directories `skill.py` touches, each `none` when the path does
not exist: `BUNDLED_SKILLS_DIR` (`skills/`), `EPIC_SKILLS_DIR`
(`skills/epic/`), `BUNDLED_COMMANDS_DIR` (`commands/`),
`CLAUDE_SKILLS_DIR` (`~/.claude/skills/`) and `CLAUDE_COMMANDS_DIR`
(`~/.claude/commands/`). -/
structure SkillEnv where
  bundledSkillsDir : Option Dir
  epicSkillsDir : Option Dir
  bundledCommandsDir : Option Dir
  claudeSkillsDir : Option Dir
  claudeCommandsDir : Option Dir
deriving Repr, DecidableEq

/-- The static `BUNDLES` table (skill.py lines 29-36). -/
def BUNDLES : Dict (List String) :=
  [("minimal", []),
   ("default", []),
   ("dev", ["claude-hooks"]),
   ("all", []),
   ("epic", []),
   ("commands", [])]

/-- Embedding of `get_bundled_skills` (skill.py lines 39-45). -/
def get_bundled_skills (env : SkillEnv) : Dict File :=
  dictOfFiles [] (globExt env.bundledSkillsDir ".md")

/-- Embedding of `get_epic_skills` (skill.py lines 48-54). -/
def get_epic_skills (env : SkillEnv) : Dict File :=
  dictOfFiles [] (globExt env.epicSkillsDir ".md")

/-- Embedding of `get_bundled_commands` (skill.py lines 57-63). -/
def get_bundled_commands (env : SkillEnv) : Dict File :=
  dictOfFiles [] (globExt env.bundledCommandsDir ".md")

/-- Embedding of `get_all_available_skills` (skill.py lines 66-73): bundled skills, then
epic skills under an `epic/` key, then bundled commands under a
`commands/` key. -/
def get_all_available_skills (env : SkillEnv) : Dict File :=
  let skills := get_bundled_skills env
  let skills := (get_epic_skills env).foldl
    (fun acc p => dictInsert acc ("epic/" ++ p.1) p.2) skills
  (get_bundled_commands env).foldl
    (fun acc p => dictInsert acc ("commands/" ++ p.1) p.2) skills

/-- Embedding of `get_installed_skills` (skill.py lines 76-82). -/
def get_installed_skills (env : SkillEnv) : Dict File :=
  dictOfFiles [] (globExt env.claudeSkillsDir ".md")

/-- Embedding of `get_bundle_skills` (skill.py lines 85-93). -/
def get_bundle_skills (env : SkillEnv) (bundle : String) : List String :=
  if bundle = "all" ∨ bundle = "default" then
    dictKeys (get_bundled_skills env)
  else if bundle = "epic" then
    (dictKeys (get_epic_skills env)).map (fun n => "epic/" ++ n)
  else if bundle = "commands" then
    (dictKeys (get_bundled_commands env)).map (fun n => "commands/" ++ n)
  else
    (dictLookup BUNDLES bundle).getD []

/-- Embedding of `get_installed_commands` (skill.py lines 96-102). -/
def get_installed_commands (env : SkillEnv) : Dict File :=
  dictOfFiles [] (globExt env.claudeCommandsDir ".md")

/-- The outcome of one skill CLI command: the directories after it ran, its
exit code (`typer.Exit(1)` or the implicit 0) and the `rprint` lines. -/
structure SkillCmdResult where
  env : SkillEnv
  exitCode : Nat
  messages : List String
deriving Repr, DecidableEq

/-- One iteration of the install loop in `add_skill` (skill.py lines
292-319).  The element is `Option String` because Python would iterate over
`[None]` when no name and a falsy bundle are given; `None` is never a dict
key, so it takes the not-found branch with `None` rendered into the
message. -/
def add_skill_step (all_skills : Dict File) (force : Bool)
    (acc : SkillEnv × List String) (skill_name? : Option String) :
    SkillEnv × List String :=
  let env := acc.1
  let msgs := acc.2
  let shown := skill_name?.getD "None"
  match skill_name?.bind (dictLookup all_skills) with
  | none =>
    (env, msgs ++
      ["[red]Skill \x27" ++ shown ++ "\x27 not found[/red]",
       "[dim]Use \x27asutils skill list --bundled\x27 to see available skills[/dim]"])
  | some source =>
    let skill_name := skill_name?.getD ""
    let is_epic := pyStartsWith skill_name "epic/"
    let is_command := pyStartsWith skill_name "commands/"
    let installed_name :=
      if is_epic || is_command then afterFirstSlash skill_name else skill_name
    if is_epic || is_command then
      let d := mkdirP env.claudeCommandsDir
      if dirHasFile d installed_name ".md" && !force then
        ({env with claudeCommandsDir := some d},
         msgs ++ ["[yellow]\x27" ++ installed_name ++
           "\x27 already installed (use --force to overwrite)[/yellow]"])
      else
        let newd := dirWrite d installed_name ".md" source.content
        ({env with claudeCommandsDir := some newd},
         msgs ++ ["[green]Added \x27" ++ installed_name ++
           "\x27 to ~/.claude/commands/[/green]"])
    else
      let d := mkdirP env.claudeSkillsDir
      if dirHasFile d installed_name ".md" && !force then
        ({env with claudeSkillsDir := some d},
         msgs ++ ["[yellow]\x27" ++ installed_name ++
           "\x27 already installed (use --force to overwrite)[/yellow]"])
      else
        let newd := dirWrite d installed_name ".md" source.content
        ({env with claudeSkillsDir := some newd},
         msgs ++ ["[green]Added \x27" ++ installed_name ++
           "\x27 to ~/.claude/skills/[/green]"])

/-- Embedding of `add_skill` (skill.py lines 258-319).  `if bundle:` is Python
truthiness, so an empty-string bundle falls through to the single-name
branch. -/
def add_skill (env : SkillEnv) (name bundle : Option String) (force : Bool) :
    SkillCmdResult :=
  if name.isNone && bundle.isNone then
    ⟨env, 1, ["[red]Provide either a skill name or --bundle[/red]"]⟩
  else
    let all_skills := get_all_available_skills env
    if bundle.getD "" ≠ "" then
      let skills_to_install := get_bundle_skills env (bundle.getD "")
      if skills_to_install.isEmpty then
        ⟨env, 1,
         ["[red]Unknown or empty bundle: " ++ bundle.getD "" ++ "[/red]",
          "[dim]Available bundles: " ++
            String.intercalate ", " (dictKeys BUNDLES) ++ "[/dim]"]⟩
      else
        let r := (skills_to_install.map some).foldl
          (add_skill_step all_skills force) (env, [])
        ⟨r.1, 0, r.2⟩
    else
      let r := [name].foldl (add_skill_step all_skills force) (env, [])
      ⟨r.1, 0, r.2⟩

/-- One iteration of the removal loop in `remove_skill` (skill.py lines
350-353): look the name up in the installed snapshot and unlink that
path. -/
def remove_skill_step (installed : Dict File)
    (acc : SkillEnv × List String) (skill_name : String) :
    SkillEnv × List String :=
  match dictLookup installed skill_name with
  | none => acc
  | some f =>
    let newd := (acc.1.claudeSkillsDir).map (fun d => dirUnlink d f.stem f.ext)
    ({acc.1 with claudeSkillsDir := newd},
     acc.2 ++ ["[green]Removed \x27" ++ skill_name ++ "\x27 from " ++
       f.stem ++ f.ext ++ "[/green]"])

/-- Embedding of `remove_skill` (skill.py lines 322-353). -/
def remove_skill (env : SkillEnv) (name bundle : Option String)
    (all_skills : Bool) : SkillCmdResult :=
  if name.isNone && bundle.isNone && !all_skills then
    ⟨env, 1, ["[red]Provide a skill name, --bundle, or --all[/red]"]⟩
  else
    let installed := get_installed_skills env
    let skills_to_remove :=
      if all_skills then dictKeys installed
      else if bundle.getD "" ≠ "" then
        (get_bundle_skills env (bundle.getD "")).filter
          (fun s => dictMem installed s)
      else
        match name with
        | some n => if dictMem installed n then [n] else []
        | none => []
    if skills_to_remove.isEmpty then
      ⟨env, 0, ["[yellow]No matching skills to remove[/yellow]"]⟩
    else
      let r := skills_to_remove.foldl (remove_skill_step installed) (env, [])
      ⟨r.1, 0, r.2⟩

/-- The description extraction for one epic-skill or bundled-command row in
`list_skills` (skill.py lines 149-161): the whole split-and-parse is inside
`try ... except Exception: pass`, so any failure leaves `desc = ""`. -/
def skill_desc (yamlLoad : YamlLoad) (content : String) : String :=
  if pyStartsWith content "---" then
    match pySplit2 "---" content with
    | [_, frontmatter, _] =>
      match yamlLoad frontmatter with
      | Except.error _ => ""
      | Except.ok meta =>
        let d := cfgGet meta "description" ""
        if pyLen d > 60 then pyTake 60 d ++ "..." else pyTake 60 d
    | _ => ""
  else ""

/-- The rows (name, installed flag, description) of the Epic Games Skills
table in `list_skills` (skill.py lines 142-164).  Total: a malformed item
only degrades its own description. -/
def list_skills_epic_rows (yamlLoad : YamlLoad) (env : SkillEnv) :
    List (String × Bool × String) :=
  let epic_skills := get_epic_skills env
  let installed_commands := get_installed_commands env
  (pySortedItems epic_skills).map (fun p =>
    ("epic/" ++ p.1, dictMem installed_commands p.1,
     skill_desc yamlLoad p.2.content))

/-! ## agents/cli.py -/

/-- The three directories `agents/cli.py` touches: `BUNDLED_AGENTS_DIR`
(`definitions/`, YAML files), `EPIC_AGENTS_DIR` (`epic/`, Markdown files)
and `CLAUDE_AGENTS_DIR` (`~/.claude/agents/`). -/
structure AgentEnv where
  bundledAgentsDir : Option Dir
  epicAgentsDir : Option Dir
  claudeAgentsDir : Option Dir
deriving Repr, DecidableEq

/-- Embedding of `get_bundled_agents` (agents/cli.py lines 26-32). -/
def get_bundled_agents (env : AgentEnv) : Dict File :=
  dictOfFiles [] (globExt env.bundledAgentsDir ".yaml")

/-- Embedding of `get_epic_agents` (agents/cli.py lines 35-41). -/
def get_epic_agents (env : AgentEnv) : Dict File :=
  dictOfFiles [] (globExt env.epicAgentsDir ".md")

/-- Embedding of `get_all_available_agents` (agents/cli.py lines 44-49). -/
def get_all_available_agents (env : AgentEnv) : Dict File :=
  (get_epic_agents env).foldl
    (fun acc p => dictInsert acc ("epic/" ++ p.1) p.2)
    (get_bundled_agents env)

/-- Embedding of `load_agent_config_from_markdown` (agents/cli.py lines 52-58).  The
unpacking `_, frontmatter, _ = content.split("---", 2)` raises
`ValueError` when the split yields fewer than three parts, and a
`yaml.safe_load` failure propagates: both surface as `Except.error`. -/
def load_agent_config_from_markdown (yamlLoad : YamlLoad) (content : String) :
    Except String (Dict String) :=
  if pyStartsWith content "---" then
    match pySplit2 "---" content with
    | [_, frontmatter, _] => yamlLoad frontmatter
    | _ => Except.error "ValueError: not enough values to unpack"
  else
    Except.ok []

/-- Embedding of `get_installed_agents` (agents/cli.py lines 61-69): one dict fed first
by the `*.yaml` glob and then by the `*.md` glob, so a Markdown file
overwrites a YAML entry of the same stem. -/
def get_installed_agents (env : AgentEnv) : Dict File :=
  dictOfFiles (dictOfFiles [] (globExt env.claudeAgentsDir ".yaml"))
    (globExt env.claudeAgentsDir ".md")

/-- Embedding of `load_agent_config` (agents/cli.py lines 72-77). -/
def load_agent_config (yamlLoad : YamlLoad) (f : File) :
    Except String (Dict String) :=
  if f.ext = ".md" then load_agent_config_from_markdown yamlLoad f.content
  else yamlLoad f.content

/-- The row loop of the Bundled Agents table in `list_agents` (agents/cli.py
lines 98-113): `load_agent_config` is called with no exception handler, so
one failure aborts the whole listing. -/
def agent_rows (yamlLoad : YamlLoad) (installed : Dict File) :
    Dict File → Except String (List (String × String × Bool))
  | [] => Except.ok []
  | p :: rest =>
    match load_agent_config yamlLoad p.2 with
    | Except.error e => Except.error e
    | Except.ok config =>
      let desc := pyTake 50 (cfgGet config "description" "")
      match agent_rows yamlLoad installed rest with
      | Except.error e => Except.error e
      | Except.ok rows =>
        Except.ok ((p.1, desc, dictMem installed p.1) :: rows)

/-- The Bundled Agents table of `list_agents` (agents/cli.py lines 80-113),
as its rows or the uncaught exception that aborts the command. -/
def list_agents_bundled_rows (yamlLoad : YamlLoad) (env : AgentEnv) :
    Except String (List (String × String × Bool)) :=
  agent_rows yamlLoad (get_installed_agents env)
    (pySortedItems (get_bundled_agents env))

/-- The outcome of one agent CLI command: directories, exit code and
`rprint` lines. -/
structure AgentCmdResult where
  env : AgentEnv
  exitCode : Nat
  messages : List String
deriving Repr, DecidableEq

/-- One iteration of the install loop in `add_agent` (agents/cli.py lines
261-283).  `installed` is the snapshot taken before the loop; the written
file keeps the extension of its source. -/
def add_agent_step (all_available installed : Dict File) (force : Bool)
    (acc : AgentEnv × List String) (agent_name : String) :
    AgentEnv × List String :=
  let env := acc.1
  let msgs := acc.2
  match dictLookup all_available agent_name with
  | none =>
    (env, msgs ++
      ["[red]Agent \x27" ++ agent_name ++ "\x27 not found in available agents[/red]"])
  | some source =>
    let installed_name :=
      if pyStartsWith agent_name "epic/" then afterFirstSlash agent_name
      else agent_name
    let ext := source.ext
    if dictMem installed installed_name && !force then
      (env, msgs ++ ["[yellow]\x27" ++ installed_name ++
        "\x27 already installed (use --force to overwrite)[/yellow]"])
    else
      let newd := dirWrite (mkdirP env.claudeAgentsDir) installed_name ext source.content
      ({env with claudeAgentsDir := some newd},
       msgs ++ ["[green]Added \x27" ++ installed_name ++ "\x27 to " ++
         installed_name ++ ext ++ "[/green]"])

/-- Embedding of `add_agent` (agents/cli.py lines 218-283).  The `Except.error` case is
the uncaught `AttributeError` Python raises on `name.startswith` when
`name` is `None` and the bundle is neither falsy nor `"epic"`. -/
def add_agent (env : AgentEnv) (name : Option String) (all_agents : Bool)
    (bundle : Option String) (force : Bool) : Except String AgentCmdResult :=
  if name.isNone && !all_agents && bundle.isNone then
    Except.ok ⟨env, 1, ["[red]Provide an agent name, --all, or --bundle[/red]"]⟩
  else
    let all_available := get_all_available_agents env
    let bundled := get_bundled_agents env
    let epic := get_epic_agents env
    let installed := get_installed_agents env
    let agents_to_install? : Except String (List String) :=
      if bundle = some "epic" then
        Except.ok ((dictKeys epic).map (fun n => "epic/" ++ n))
      else if all_agents then
        Except.ok (dictKeys bundled)
      else
        match name with
        | none => Except.error "AttributeError: \x27NoneType\x27 object has no attribute \x27startswith\x27"
        | some n =>
          if pyStartsWith n "epic/" then Except.ok [n]
          else if !dictMem all_available n && dictMem all_available ("epic/" ++ n) then
            Except.ok ["epic/" ++ n]
          else Except.ok [n]
    match agents_to_install? with
    | Except.error e => Except.error e
    | Except.ok agents_to_install =>
      if agents_to_install.isEmpty then
        Except.ok ⟨env, 0, ["[yellow]No agents to install[/yellow]"]⟩
      else
        let env1 := {env with claudeAgentsDir := some (mkdirP env.claudeAgentsDir)}
        let r := agents_to_install.foldl
          (add_agent_step all_available installed force) (env1, [])
        Except.ok ⟨r.1, 0, r.2⟩

/-! ## Sample environments used by witnesses and counterexamples -/

/-- A small skill environment: one bundled skill, one epic skill, one
bundled command, nothing installed. -/
def sampleSkillEnv : SkillEnv :=
  ⟨some [⟨"claude-hooks", ".md", "hooks body"⟩],
   some [⟨"epic-flow", ".md", "epic body"⟩],
   some [⟨"fix-build", ".md", "command body"⟩],
   some [], some []⟩

/-- A skill environment whose skills directory already holds an installed
copy of `claude-hooks` with distinctive content. -/
def installedSkillEnv : SkillEnv :=
  ⟨some [⟨"claude-hooks", ".md", "new body"⟩],
   some [⟨"epic-flow", ".md", "epic body"⟩],
   some [],
   some [⟨"claude-hooks", ".md", "old body"⟩],
   some []⟩

/-- An agent environment with the namespace collision of the spec scenario:
a default `foo.yaml` and an epic `foo.md`. -/
def collisionAgentEnv : AgentEnv :=
  ⟨some [⟨"foo", ".yaml", "default agent"⟩],
   some [⟨"foo", ".md", "epic agent"⟩],
   some []⟩

/-- The agent environment after `add_agent "epic/foo"` on
`collisionAgentEnv` (the error branch is unreachable on this input). -/
def collisionAgentEnv1 : AgentEnv :=
  match add_agent collisionAgentEnv (some "epic/foo") false none true with
  | Except.ok r => r.env
  | Except.error _ => collisionAgentEnv

/-- The collision agent environment with the two contents left open. -/
def collisionAgentEnvWith (c1 c2 : String) : AgentEnv :=
  ⟨some [⟨"foo", ".yaml", c1⟩], some [⟨"foo", ".md", c2⟩], some []⟩

/-- A skill environment with a bundled `foo.md` and an epic `foo.md`,
contents left open, nothing installed. -/
def collisionSkillEnvWith (c1 c2 : String) : SkillEnv :=
  ⟨some [⟨"foo", ".md", c1⟩], some [⟨"foo", ".md", c2⟩], some [], some [], some []⟩

/-- A `yaml.safe_load` stand-in that fails on one specific malformed
document and parses everything else to an empty mapping. -/
def failingYamlLoad : YamlLoad := fun s =>
  if s = "description: [unclosed" then
    Except.error "yaml.scanner.ScannerError"
  else
    Except.ok []

/-- An agent environment whose first bundled agent file holds the
document `failingYamlLoad` rejects. -/
def malformedAgentEnv : AgentEnv :=
  ⟨some [⟨"broken", ".yaml", "description: [unclosed"⟩,
    ⟨"good", ".yaml", "description: fine"⟩],
   none, none⟩

/-- A skill environment with one epic skill whose frontmatter is the
document `failingYamlLoad` rejects and one with clean frontmatter. -/
def malformedSkillEnv : SkillEnv :=
  ⟨some [],
   some [⟨"bad-skill", ".md", "---description: [unclosed---body"⟩,
    ⟨"good-skill", ".md", "---ok---body"⟩],
   some [], some [], some []⟩

end Asutils

namespace Asutils

/-! ## Dictionary and directory lemmas -/

theorem dictKeys_cons {α : Type} (p : String × α) (l : Dict α) :
    dictKeys (p :: l) = p.1 :: dictKeys l := rfl

theorem dictInsert_cons {α : Type} (p : String × α) (l : Dict α) (k : String) (v : α) :
    dictInsert (p :: l) k v = if p.1 = k then (k, v) :: l else p :: dictInsert l k v := rfl

theorem dictLookup_cons {α : Type} (p : String × α) (l : Dict α) (k : String) :
    dictLookup (p :: l) k = if p.1 = k then some p.2 else dictLookup l k := rfl

theorem dictOfFiles_cons (init : Dict File) (f : File) (fs : List File) :
    dictOfFiles init (f :: fs) = dictOfFiles (dictInsert init f.stem f) fs := rfl

theorem dictOfFiles_append (init : Dict File) (fs gs : List File) :
    dictOfFiles init (fs ++ gs) = dictOfFiles (dictOfFiles init fs) gs :=
  List.foldl_append _ _ _ _

theorem dictLookup_dictInsert_self {α : Type} (l : Dict α) (k : String) (v : α) :
    dictLookup (dictInsert l k v) k = some v := by
  induction l with
  | nil => simp [dictInsert, dictLookup]
  | cons p rest ih =>
    by_cases h : p.1 = k
    · simp [dictInsert_cons, dictLookup_cons, h]
    · simp [dictInsert_cons, dictLookup_cons, h, ih]

theorem dictLookup_dictInsert_ne {α : Type} (l : Dict α) (k k' : String) (v : α)
    (h : k' ≠ k) : dictLookup (dictInsert l k v) k' = dictLookup l k' := by
  induction l with
  | nil =>
    simp only [dictInsert, dictLookup]
    rw [if_neg (fun hh => h hh.symm)]
  | cons p rest ih =>
    rw [dictInsert_cons]
    by_cases hp : p.1 = k
    · rw [if_pos hp, dictLookup_cons, dictLookup_cons,
        if_neg (fun hh : k = k' => h hh.symm), if_neg (fun hh : p.1 = k' => h (hp ▸ hh).symm)]
    · rw [if_neg hp, dictLookup_cons, dictLookup_cons]
      by_cases hp' : p.1 = k'
      · rw [if_pos hp', if_pos hp']
      · rw [if_neg hp', if_neg hp', ih]

theorem dictLookup_dictOfFiles_of_no_stem (init : Dict File) (fs : List File)
    (n : String) (h : ∀ f ∈ fs, f.stem ≠ n) :
    dictLookup (dictOfFiles init fs) n = dictLookup init n := by
  induction fs generalizing init with
  | nil => simp [dictOfFiles]
  | cons f rest ih =>
    have hf : f.stem ≠ n := h f (List.mem_cons_self f rest)
    have hrest : ∀ g ∈ rest, g.stem ≠ n := fun g hg => h g (List.mem_cons_of_mem f hg)
    rw [dictOfFiles_cons, ih _ hrest, dictLookup_dictInsert_ne _ _ _ _ (Ne.symm hf)]

theorem dictLookup_dictOfFiles_single (init : Dict File) (fs : List File)
    (n : String) (f : File)
    (h : fs.filter (fun g => decide (g.stem = n)) = [f]) :
    dictLookup (dictOfFiles init fs) n = some f := by
  induction fs generalizing init with
  | nil => simp at h
  | cons g rest ih =>
    by_cases hg : g.stem = n
    · have h' : g = f ∧ ∀ x ∈ rest, ¬ x.stem = n := by
        simpa [List.filter_cons, hg] using h
      rw [dictOfFiles_cons,
        dictLookup_dictOfFiles_of_no_stem _ _ _ (fun x hx => h'.2 x hx), hg,
        dictLookup_dictInsert_self, h'.1]
    · have h' : rest.filter (fun x => decide (x.stem = n)) = [f] := by
        simpa [List.filter_cons, hg] using h
      rw [dictOfFiles_cons, ih _ h']

theorem dictLookup_isSome_iff_mem_keys {α : Type} (l : Dict α) (k : String) :
    (dictLookup l k).isSome = true ↔ k ∈ dictKeys l := by
  induction l with
  | nil => simp [dictLookup, dictKeys]
  | cons p rest ih =>
    rw [dictLookup_cons, dictKeys_cons]
    by_cases h : p.1 = k
    · simp [h]
    · simp only [if_neg h, ih, List.mem_cons]
      constructor
      · exact Or.inr
      · rintro (hk | hk)
        · exact absurd hk.symm h
        · exact hk

theorem dictKeys_dictInsert_mem {α : Type} (l : Dict α) (k : String) (v : α)
    (h : k ∈ dictKeys l) : dictKeys (dictInsert l k v) = dictKeys l := by
  induction l with
  | nil => simp [dictKeys] at h
  | cons p rest ih =>
    rw [dictInsert_cons]
    by_cases hp : p.1 = k
    · rw [if_pos hp, dictKeys_cons, dictKeys_cons, hp]
    · have hrest : k ∈ dictKeys rest := by
        rw [dictKeys_cons] at h
        rcases List.mem_cons.mp h with h' | h'
        · exact absurd h'.symm hp
        · exact h'
      rw [if_neg hp, dictKeys_cons, dictKeys_cons, ih hrest]

theorem dictKeys_dictInsert_not_mem {α : Type} (l : Dict α) (k : String) (v : α)
    (h : k ∉ dictKeys l) : dictKeys (dictInsert l k v) = dictKeys l ++ [k] := by
  induction l with
  | nil => simp [dictInsert, dictKeys]
  | cons p rest ih =>
    have hp : p.1 ≠ k := by
      intro hpk
      exact h (by rw [dictKeys_cons, hpk]; exact List.mem_cons_self k _)
    have hrest : k ∉ dictKeys rest := by
      intro hk
      exact h (by rw [dictKeys_cons]; exact List.mem_cons_of_mem _ hk)
    rw [dictInsert_cons, if_neg hp, dictKeys_cons, ih hrest, dictKeys_cons,
      List.cons_append]

theorem mem_dictKeys_dictOfFiles (init : Dict File) (fs : List File) (n : String)
    (h : n ∈ dictKeys (dictOfFiles init fs)) :
    n ∈ dictKeys init ∨ ∃ g ∈ fs, g.stem = n := by
  induction fs generalizing init with
  | nil => exact Or.inl h
  | cons f rest ih =>
    rw [dictOfFiles_cons] at h
    rcases ih _ h with hmem | ⟨g, hg, hgn⟩
    · by_cases hf : f.stem = n
      · exact Or.inr ⟨f, List.mem_cons_self f rest, hf⟩
      · left
        by_cases hin : f.stem ∈ dictKeys init
        · rwa [dictKeys_dictInsert_mem _ _ _ hin] at hmem
        · rw [dictKeys_dictInsert_not_mem _ _ _ hin] at hmem
          rcases List.mem_append.mp hmem with h1 | h1
          · exact h1
          · have h2 : n = f.stem := by simpa using h1
            exact absurd h2.symm hf
    · exact Or.inr ⟨g, List.mem_cons_of_mem f hg, hgn⟩

theorem dictKeys_nodup_dictInsert {α : Type} (l : Dict α) (k : String) (v : α)
    (h : (dictKeys l).Nodup) : (dictKeys (dictInsert l k v)).Nodup := by
  by_cases hk : k ∈ dictKeys l
  · rwa [dictKeys_dictInsert_mem _ _ _ hk]
  · rw [dictKeys_dictInsert_not_mem _ _ _ hk]
    simpa [List.nodup_append] using ⟨h, hk⟩

theorem dictKeys_nodup_dictOfFiles (init : Dict File) (fs : List File)
    (h : (dictKeys init).Nodup) : (dictKeys (dictOfFiles init fs)).Nodup := by
  induction fs generalizing init with
  | nil => exact h
  | cons f rest ih =>
    rw [dictOfFiles_cons]
    exact ih _ (dictKeys_nodup_dictInsert _ _ _ h)

theorem dictMem_dictOfFiles_nil_of_no_stem (fs : List File) (n : String)
    (h : ∀ f ∈ fs, f.stem ≠ n) : dictMem (dictOfFiles [] fs) n = false := by
  have h' := dictLookup_dictOfFiles_of_no_stem [] fs n h
  simp [dictMem, h', dictLookup]

/-- A bundle name handled by none of the three dynamic branches and absent
from `BUNDLES` resolves to the `BUNDLES.get(bundle, [])` default, the empty
list. -/
theorem get_bundle_skills_unknown (env : SkillEnv) (b : String)
    (h1 : b ≠ "all") (h2 : b ≠ "default") (h3 : b ≠ "epic")
    (h4 : b ≠ "commands") (h5 : b ≠ "minimal") (h6 : b ≠ "dev") :
    get_bundle_skills env b = [] := by
  unfold get_bundle_skills
  rw [if_neg (by simp [h1, h2]), if_neg h3, if_neg h4]
  simp [BUNDLES, dictLookup, Ne.symm h1, Ne.symm h2, Ne.symm h3, Ne.symm h4,
    Ne.symm h5, Ne.symm h6]

/-! ## Claims -/

/-- C1 (counterexample): installing over the registered-but-empty bundle
`minimal` does not exit with code zero, as the claim states: the command
reports "Unknown or empty bundle" and exits with code 1, even though the
resolver did return the empty list. -/
theorem minimal_bundle_install_exit_counterexample :
    get_bundle_skills sampleSkillEnv "minimal" = [] ∧
    (add_skill sampleSkillEnv none (some "minimal") false).exitCode = 1 := by
  decide

/-- C1 (amended): resolving `minimal` yields the empty list (the resolver
itself succeeds), but the subsequent install does not report "nothing to
install" with exit code zero: `add_skill` treats the empty resolution as
the error "Unknown or empty bundle" and terminates with exit code 1,
leaving every directory untouched. -/
theorem minimal_bundle_resolves_empty_install_errors (env : SkillEnv) (force : Bool) :
    get_bundle_skills env "minimal" = [] ∧
    add_skill env none (some "minimal") force =
      ⟨env, 1,
       ["[red]Unknown or empty bundle: minimal[/red]",
        "[dim]Available bundles: minimal, default, dev, all, epic, commands[/dim]"]⟩ :=
  ⟨rfl, rfl⟩

/-- C2: a bundle name that is neither dynamic (`all`, `default`), a
namespace (`epic`, `commands`), nor statically declared (`minimal`,
`dev`) resolves to the empty list whatever the catalogs hold, and the
install command then fails with exit code 1, its failure message listing
the known bundle names.  (`b ≠ ""` because Python `if bundle:` routes an
empty-string bundle down the single-name branch instead.) -/
theorem unknown_bundle_fails_listing_known_names (env : SkillEnv) (b : String)
    (force : Bool)
    (h1 : b ≠ "all") (h2 : b ≠ "default") (h3 : b ≠ "epic")
    (h4 : b ≠ "commands") (h5 : b ≠ "minimal") (h6 : b ≠ "dev") (h7 : b ≠ "") :
    get_bundle_skills env b = [] ∧
    add_skill env none (some b) force =
      ⟨env, 1,
       ["[red]Unknown or empty bundle: " ++ b ++ "[/red]",
        "[dim]Available bundles: minimal, default, dev, all, epic, commands[/dim]"]⟩ := by
  have hres := get_bundle_skills_unknown env b h1 h2 h3 h4 h5 h6
  refine ⟨hres, ?_⟩
  have hmsg : "[dim]Available bundles: " ++
      String.intercalate ", " (dictKeys BUNDLES) ++ "[/dim]" =
      "[dim]Available bundles: minimal, default, dev, all, epic, commands[/dim]" := by
    decide
  simp [add_skill, h7, hres, hmsg]

/-- Witness for C2 at the bundle name of the unknown-bundle law in the spec. -/
theorem unknown_bundle_fails_listing_known_names_witness :
    get_bundle_skills sampleSkillEnv "not-a-real-bundle" = [] ∧
    add_skill sampleSkillEnv none (some "not-a-real-bundle") false =
      ⟨sampleSkillEnv, 1,
       ["[red]Unknown or empty bundle: not-a-real-bundle[/red]",
        "[dim]Available bundles: minimal, default, dev, all, epic, commands[/dim]"]⟩ :=
  unknown_bundle_fails_listing_known_names sampleSkillEnv "not-a-real-bundle" false
    (by decide) (by decide) (by decide) (by decide) (by decide) (by decide)
    (by decide)

/-- C5 (counterexample): when the missing name is the sole requested item
the command does not terminate with a non-zero exit status as the claim
states: the name is reported not found and the exit code is 0. -/
theorem missing_sole_item_exit_counterexample :
    add_skill sampleSkillEnv (some "missing-skill") none false =
      ⟨sampleSkillEnv, 0,
       ["[red]Skill \x27missing-skill\x27 not found[/red]",
        "[dim]Use \x27asutils skill list --bundled\x27 to see available skills[/dim]"]⟩ := by
  decide

/-- C5 (amended): a name absent from the merged catalog is skipped with a
warning while every present name in the batch is still installed, and no
exception propagates — but the exit status is 0 in every case, including
when the missing name is the sole requested item. -/
theorem batch_install_tolerates_missing (env : SkillEnv) (d : Dir)
    (real missing : String) (src : File) (force : Bool)
    (hreal : dictLookup (get_all_available_skills env) real = some src)
    (hmiss : dictLookup (get_all_available_skills env) missing = none)
    (he : pyStartsWith real "epic/" = false)
    (hc : pyStartsWith real "commands/" = false)
    (hd : env.claudeSkillsDir = some d)
    (hfree : dirHasFile d real ".md" = false) :
    [some real, some missing].foldl
        (add_skill_step (get_all_available_skills env) force) (env, []) =
      ({env with claudeSkillsDir := some (dirWrite d real ".md" src.content)},
       ["[green]Added \x27" ++ real ++ "\x27 to ~/.claude/skills/[/green]",
        "[red]Skill \x27" ++ missing ++ "\x27 not found[/red]",
        "[dim]Use \x27asutils skill list --bundled\x27 to see available skills[/dim]"]) ∧
    add_skill env (some missing) none force =
      ⟨env, 0,
       ["[red]Skill \x27" ++ missing ++ "\x27 not found[/red]",
        "[dim]Use \x27asutils skill list --bundled\x27 to see available skills[/dim]"]⟩ := by
  constructor
  · simp [add_skill_step, hreal, hmiss, he, hc, hd, hfree, mkdirP]
  · simp [add_skill, add_skill_step, hmiss]

/-- Witness for C5 at a catalog holding `claude-hooks` and nothing named
`missing-skill`. -/
theorem batch_install_tolerates_missing_witness :
    [some "claude-hooks", some "missing-skill"].foldl
        (add_skill_step (get_all_available_skills sampleSkillEnv) false)
        (sampleSkillEnv, []) =
      ({sampleSkillEnv with
          claudeSkillsDir := some (dirWrite [] "claude-hooks" ".md" "hooks body")},
       ["[green]Added \x27claude-hooks\x27 to ~/.claude/skills/[/green]",
        "[red]Skill \x27missing-skill\x27 not found[/red]",
        "[dim]Use \x27asutils skill list --bundled\x27 to see available skills[/dim]"]) ∧
    add_skill sampleSkillEnv (some "missing-skill") none false =
      ⟨sampleSkillEnv, 0,
       ["[red]Skill \x27missing-skill\x27 not found[/red]",
        "[dim]Use \x27asutils skill list --bundled\x27 to see available skills[/dim]"]⟩ :=
  batch_install_tolerates_missing sampleSkillEnv [] "claude-hooks" "missing-skill"
    ⟨"claude-hooks", ".md", "hooks body"⟩ false (by decide) (by decide) (by decide)
    (by decide) (by decide) (by decide)

/-- C6: if item `n` is already present under its target name, installing it
with `force=false` leaves every directory (hence the bytes of the installed
file) unchanged and reports the already-installed skip; `force=true`
skips the existence check and replaces the content of the target with
that of the source.  Stated for the skill installer (whose check is
`target.exists()`) and the agent installer (whose check is membership of
the target name in the installed snapshot). -/
theorem install_skip_and_force_overwrite (envS : SkillEnv) (d : Dir)
    (n : String) (src : File)
    (hlook : dictLookup (get_all_available_skills envS) n = some src)
    (he : pyStartsWith n "epic/" = false)
    (hc : pyStartsWith n "commands/" = false)
    (hd : envS.claudeSkillsDir = some d)
    (hins : dirHasFile d n ".md" = true)
    (envA : AgentEnv) (da : Dir) (m : String) (asrc : File)
    (halook : dictLookup (get_all_available_agents envA) m = some asrc)
    (hae : pyStartsWith m "epic/" = false)
    (hda : envA.claudeAgentsDir = some da)
    (hains : dictMem (get_installed_agents envA) m = true) :
    add_skill envS (some n) none false =
      ⟨envS, 0,
       ["[yellow]\x27" ++ n ++ "\x27 already installed (use --force to overwrite)[/yellow]"]⟩ ∧
    add_skill envS (some n) none true =
      ⟨{envS with claudeSkillsDir := some (dirWrite d n ".md" src.content)}, 0,
       ["[green]Added \x27" ++ n ++ "\x27 to ~/.claude/skills/[/green]"]⟩ ∧
    add_agent envA (some m) false none false =
      Except.ok ⟨envA, 0,
       ["[yellow]\x27" ++ m ++ "\x27 already installed (use --force to overwrite)[/yellow]"]⟩ ∧
    add_agent envA (some m) false none true =
      Except.ok ⟨{envA with claudeAgentsDir := some (dirWrite da m asrc.ext asrc.content)}, 0,
       ["[green]Added \x27" ++ m ++ "\x27 to " ++ m ++ asrc.ext ++ "[/green]"]⟩ := by
  obtain ⟨s1, s2, s3, s4, s5⟩ := envS
  simp only at hd
  subst hd
  obtain ⟨a1, a2, a3⟩ := envA
  simp only at hda
  subst hda
  simp only [dictMem] at hains
  refine ⟨?_, ?_, ?_, ?_⟩
  · simp [add_skill, add_skill_step, hlook, he, hc, hins, mkdirP]
  · simp [add_skill, add_skill_step, hlook, he, hc, hins, mkdirP]
  · simp [add_agent, add_agent_step, halook, hae, hains, dictMem, mkdirP]
  · simp [add_agent, add_agent_step, halook, hae, hains, dictMem, mkdirP]

/-- Witness for C6: `claude-hooks` is already installed with old content in
`installedSkillEnv`; the collision agent environment installs `epic/foo`
twice. -/
theorem install_skip_and_force_overwrite_witness :
    add_skill installedSkillEnv (some "claude-hooks") none false =
      ⟨installedSkillEnv, 0,
       ["[yellow]\x27claude-hooks\x27 already installed (use --force to overwrite)[/yellow]"]⟩ ∧
    add_skill installedSkillEnv (some "claude-hooks") none true =
      ⟨{installedSkillEnv with
          claudeSkillsDir := some (dirWrite [⟨"claude-hooks", ".md", "old body"⟩]
            "claude-hooks" ".md" "new body")}, 0,
       ["[green]Added \x27claude-hooks\x27 to ~/.claude/skills/[/green]"]⟩ ∧
    add_agent collisionAgentEnv1 (some "foo") false none false =
      Except.ok ⟨collisionAgentEnv1, 0,
       ["[yellow]\x27foo\x27 already installed (use --force to overwrite)[/yellow]"]⟩ ∧
    add_agent collisionAgentEnv1 (some "foo") false none true =
      Except.ok ⟨{collisionAgentEnv1 with
          claudeAgentsDir := some (dirWrite [⟨"foo", ".md", "epic agent"⟩]
            "foo" ".yaml" "default agent")}, 0,
       ["[green]Added \x27foo\x27 to foo.yaml[/green]"]⟩ :=
  install_skip_and_force_overwrite installedSkillEnv
    [⟨"claude-hooks", ".md", "old body"⟩] "claude-hooks"
    ⟨"claude-hooks", ".md", "new body"⟩ (by decide) (by decide) (by decide)
    (by decide) (by decide) collisionAgentEnv1 [⟨"foo", ".md", "epic agent"⟩]
    "foo" ⟨"foo", ".yaml", "default agent"⟩ (by decide) (by decide) (by decide)
    (by decide)

/-- C7: `all` and `default` resolve to the live keys of the unprefixed
default source catalog, and adding one new `.md` file with a fresh stem to
the bundled skills directory — with no other state change — extends the
next resolution of both by exactly that stem.  Resolution is a pure
function of the directories, so nothing is cached across calls. -/
theorem dynamic_bundles_resolve_live (env : SkillEnv) (d : Dir) (f : File)
    (hd : env.bundledSkillsDir = some d)
    (hext : f.ext = ".md")
    (hfresh : ∀ g ∈ d, g.stem ≠ f.stem) :
    get_bundle_skills env "all" = dictKeys (get_bundled_skills env) ∧
    get_bundle_skills env "default" = get_bundle_skills env "all" ∧
    get_bundle_skills {env with bundledSkillsDir := some (d ++ [f])} "all" =
      get_bundle_skills env "all" ++ [f.stem] ∧
    get_bundle_skills {env with bundledSkillsDir := some (d ++ [f])} "default" =
      get_bundle_skills env "all" ++ [f.stem] := by
  have hgrow : dictKeys (get_bundled_skills {env with bundledSkillsDir := some (d ++ [f])}) =
      dictKeys (get_bundled_skills env) ++ [f.stem] := by
    have hfilter : (d ++ [f]).filter (fun g => decide (g.ext = ".md")) =
        d.filter (fun g => decide (g.ext = ".md")) ++ [f] := by
      rw [List.filter_append]
      simp [hext]
    have hnotm : f.stem ∉ dictKeys (dictOfFiles []
        (d.filter (fun g => decide (g.ext = ".md")))) := by
      intro hmem
      rcases mem_dictKeys_dictOfFiles _ _ _ hmem with h0 | ⟨g, hg, hgn⟩
      · simp [dictKeys] at h0
      · exact hfresh g (List.mem_of_mem_filter hg) hgn
    calc dictKeys (get_bundled_skills {env with bundledSkillsDir := some (d ++ [f])})
        = dictKeys (dictOfFiles [] ((d ++ [f]).filter (fun g => decide (g.ext = ".md")))) := rfl
      _ = dictKeys (dictOfFiles []
            (d.filter (fun g => decide (g.ext = ".md")) ++ [f])) := by rw [hfilter]
      _ = dictKeys (dictInsert (dictOfFiles []
            (d.filter (fun g => decide (g.ext = ".md")))) f.stem f) := by
            rw [dictOfFiles_append]
            rfl
      _ = dictKeys (dictOfFiles []
            (d.filter (fun g => decide (g.ext = ".md")))) ++ [f.stem] :=
            dictKeys_dictInsert_not_mem _ _ _ hnotm
      _ = dictKeys (get_bundled_skills env) ++ [f.stem] := by
            rw [get_bundled_skills, hd]
            rfl
  refine ⟨rfl, rfl, ?_, ?_⟩
  · calc get_bundle_skills {env with bundledSkillsDir := some (d ++ [f])} "all"
        = dictKeys (get_bundled_skills {env with bundledSkillsDir := some (d ++ [f])}) := rfl
      _ = dictKeys (get_bundled_skills env) ++ [f.stem] := hgrow
      _ = get_bundle_skills env "all" ++ [f.stem] := rfl
  · calc get_bundle_skills {env with bundledSkillsDir := some (d ++ [f])} "default"
        = dictKeys (get_bundled_skills {env with bundledSkillsDir := some (d ++ [f])}) := rfl
      _ = dictKeys (get_bundled_skills env) ++ [f.stem] := hgrow
      _ = get_bundle_skills env "all" ++ [f.stem] := rfl

/-- Witness for C7: adding `new-skill.md` next to `claude-hooks.md`. -/
theorem dynamic_bundles_resolve_live_witness :
    get_bundle_skills sampleSkillEnv "all" =
      dictKeys (get_bundled_skills sampleSkillEnv) ∧
    get_bundle_skills sampleSkillEnv "default" =
      get_bundle_skills sampleSkillEnv "all" ∧
    get_bundle_skills {sampleSkillEnv with
        bundledSkillsDir := some ([⟨"claude-hooks", ".md", "hooks body"⟩] ++
          [⟨"new-skill", ".md", "new"⟩])} "all" =
      get_bundle_skills sampleSkillEnv "all" ++ ["new-skill"] ∧
    get_bundle_skills {sampleSkillEnv with
        bundledSkillsDir := some ([⟨"claude-hooks", ".md", "hooks body"⟩] ++
          [⟨"new-skill", ".md", "new"⟩])} "default" =
      get_bundle_skills sampleSkillEnv "all" ++ ["new-skill"] :=
  dynamic_bundles_resolve_live sampleSkillEnv [⟨"claude-hooks", ".md", "hooks body"⟩]
    ⟨"new-skill", ".md", "new"⟩ (by decide) (by decide) (by decide)

/-- C8: on a successful (forced) install, the agent installer writes the
target under the own extension of the source file (`source.suffix`), while the
skill-family installer hard-codes the `.md` extension for the target
whatever extension the source file has. -/
theorem install_extension_policy (envS : SkillEnv) (d : Dir) (n : String)
    (src : File)
    (hlook : dictLookup (get_all_available_skills envS) n = some src)
    (he : pyStartsWith n "epic/" = false)
    (hc : pyStartsWith n "commands/" = false)
    (hd : envS.claudeSkillsDir = some d)
    (envA : AgentEnv) (da : Dir) (m : String) (asrc : File)
    (halook : dictLookup (get_all_available_agents envA) m = some asrc)
    (hae : pyStartsWith m "epic/" = false)
    (hda : envA.claudeAgentsDir = some da) :
    add_skill envS (some n) none true =
      ⟨{envS with claudeSkillsDir := some (dirWrite d n ".md" src.content)}, 0,
       ["[green]Added \x27" ++ n ++ "\x27 to ~/.claude/skills/[/green]"]⟩ ∧
    add_agent envA (some m) false none true =
      Except.ok ⟨{envA with claudeAgentsDir := some (dirWrite da m asrc.ext asrc.content)}, 0,
       ["[green]Added \x27" ++ m ++ "\x27 to " ++ m ++ asrc.ext ++ "[/green]"]⟩ := by
  obtain ⟨s1, s2, s3, s4, s5⟩ := envS
  simp only at hd
  subst hd
  obtain ⟨a1, a2, a3⟩ := envA
  simp only at hda
  subst hda
  constructor
  · simp [add_skill, add_skill_step, hlook, he, hc, mkdirP]
  · simp [add_agent, add_agent_step, halook, hae, dictMem, mkdirP]

/-- Witness for C8: a skill install from a `.md` source and an agent
install from a `.yaml` source, each into an empty installed directory. -/
theorem install_extension_policy_witness :
    add_skill sampleSkillEnv (some "claude-hooks") none true =
      ⟨{sampleSkillEnv with
          claudeSkillsDir := some (dirWrite [] "claude-hooks" ".md" "hooks body")}, 0,
       ["[green]Added \x27claude-hooks\x27 to ~/.claude/skills/[/green]"]⟩ ∧
    add_agent collisionAgentEnv (some "foo") false none true =
      Except.ok ⟨{collisionAgentEnv with
          claudeAgentsDir := some (dirWrite [] "foo" ".yaml" "default agent")}, 0,
       ["[green]Added \x27foo\x27 to foo.yaml[/green]"]⟩ :=
  install_extension_policy sampleSkillEnv [] "claude-hooks"
    ⟨"claude-hooks", ".md", "hooks body"⟩ (by decide) (by decide) (by decide)
    (by decide) collisionAgentEnv [] "foo" ⟨"foo", ".yaml", "default agent"⟩
    (by decide) (by decide) (by decide)

/-- C9: when the installed-agents directory holds both `n.yaml` and `n.md`,
the installed-state reader returns a single entry for `n` and its path is
the Markdown file: the `*.md` glob loop runs after the `*.yaml` loop and
its dict assignment overwrites the YAML entry. -/
theorem installed_agents_md_shadows_yaml (env : AgentEnv) (n : String)
    (fy fm : File)
    (hy : (globExt env.claudeAgentsDir ".yaml").filter
      (fun g => decide (g.stem = n)) = [fy])
    (hm : (globExt env.claudeAgentsDir ".md").filter
      (fun g => decide (g.stem = n)) = [fm]) :
    dictLookup (get_installed_agents env) n = some fm ∧
    (dictKeys (get_installed_agents env)).count n = 1 := by
  have hlook : dictLookup (get_installed_agents env) n = some fm :=
    dictLookup_dictOfFiles_single _ _ _ _ hm
  refine ⟨hlook, ?_⟩
  have hnodup : (dictKeys (get_installed_agents env)).Nodup := by
    apply dictKeys_nodup_dictOfFiles
    apply dictKeys_nodup_dictOfFiles
    simp [dictKeys]
  have hmem : n ∈ dictKeys (get_installed_agents env) := by
    rw [← dictLookup_isSome_iff_mem_keys, hlook]
    rfl
  exact List.count_eq_one_of_mem hnodup hmem

/-- Witness for C9 on a directory holding `foo.yaml` and `foo.md`. -/
theorem installed_agents_md_shadows_yaml_witness :
    dictLookup (get_installed_agents ⟨none, none,
      some [⟨"foo", ".yaml", "yaml body"⟩, ⟨"foo", ".md", "md body"⟩]⟩) "foo" =
      some ⟨"foo", ".md", "md body"⟩ ∧
    (dictKeys (get_installed_agents ⟨none, none,
      some [⟨"foo", ".yaml", "yaml body"⟩, ⟨"foo", ".md", "md body"⟩]⟩)).count "foo" = 1 :=
  installed_agents_md_shadows_yaml
    ⟨none, none, some [⟨"foo", ".yaml", "yaml body"⟩, ⟨"foo", ".md", "md body"⟩]⟩
    "foo" ⟨"foo", ".yaml", "yaml body"⟩ ⟨"foo", ".md", "md body"⟩
    (by decide) (by decide)

/-- A name carrying a namespace slash can never equal the stem of a file,
since file base names contain no path separator. -/
theorem stem_ne_slashed (s : String) (pre n : String)
    (hs : '/' ∉ s.data) (hpre : '/' ∈ pre.data) : s ≠ pre ++ n := by
  intro heq
  apply hs
  rw [heq]
  have : (pre ++ n).data = pre.data ++ n.data := rfl
  rw [this]
  exact List.mem_append.mpr (Or.inl hpre)

/-- C10: removing by the namespace bundles `epic` or `commands` deletes
nothing: the resolver returns namespace-prefixed names, while the
installed set — read only from the skills directory, whose file stems
contain no slash — is keyed by unprefixed base names, so the filter is
empty and the command reports that no skills match, leaving every
directory unchanged. -/
theorem remove_namespace_bundle_removes_nothing (env : SkillEnv) (d : Dir)
    (b : String)
    (hd : env.claudeSkillsDir = some d)
    (hslash : ∀ f ∈ d, '/' ∉ f.stem.data)
    (hb : b = "epic" ∨ b = "commands") :
    remove_skill env none (some b) false =
      ⟨env, 0, ["[yellow]No matching skills to remove[/yellow]"]⟩ := by
  have hinst : ∀ (pre x : String), '/' ∈ pre.data →
      dictMem (get_installed_skills env) (pre ++ x) = false := by
    intro pre x hpre
    rw [get_installed_skills, hd]
    apply dictMem_dictOfFiles_nil_of_no_stem
    intro f hf
    exact stem_ne_slashed f.stem pre x (hslash f (List.mem_of_mem_filter hf)) hpre
  rcases hb with hb | hb <;> subst hb
  · have hfilter : (get_bundle_skills env "epic").filter
        (fun s => dictMem (get_installed_skills env) s) = [] := by
      apply List.filter_eq_nil_iff.mpr
      intro s hs
      rcases List.mem_map.mp hs with ⟨x, _, rfl⟩
      simp [hinst "epic/" x (by decide)]
    simp [remove_skill, hfilter]
  · have hfilter : (get_bundle_skills env "commands").filter
        (fun s => dictMem (get_installed_skills env) s) = [] := by
      apply List.filter_eq_nil_iff.mpr
      intro s hs
      rcases List.mem_map.mp hs with ⟨x, _, rfl⟩
      simp [hinst "commands/" x (by decide)]
    simp [remove_skill, hfilter]

/-- Witness for C10: removing the `epic` bundle when an epic skill has in
fact been installed (as `epic-flow.md` under the commands directory, and
with an unrelated skill installed under the skills directory) removes
nothing. -/
theorem remove_namespace_bundle_removes_nothing_witness :
    remove_skill installedSkillEnv none (some "epic") false =
      ⟨installedSkillEnv, 0, ["[yellow]No matching skills to remove[/yellow]"]⟩ :=
  remove_namespace_bundle_removes_nothing installedSkillEnv
    [⟨"claude-hooks", ".md", "old body"⟩] "epic" (by decide) (by decide)
    (Or.inl (by decide))

/-- C3 (counterexample): with a default agent `foo.yaml` and an epic agent
`foo.md`, installing `epic/foo` and then (last) the plain `foo` with force
does not target the same physical file name: after both installs the
directory holds two distinct files, and the bytes of the file written by
the earlier `epic/foo` install are unchanged by the later one. -/
theorem namespace_collision_counterexample :
    collisionAgentEnv1.claudeAgentsDir = some [⟨"foo", ".md", "epic agent"⟩] ∧
    (match add_agent collisionAgentEnv1 (some "foo") false none true with
     | Except.ok r => r.env.claudeAgentsDir
     | Except.error _ => none) =
      some [⟨"foo", ".md", "epic agent"⟩, ⟨"foo", ".yaml", "default agent"⟩] := by
  decide

/-- C3 (amended): `epic/foo` and the plain `foo` are written to distinct
physical files — different directories for the skill family
(`~/.claude/commands/` vs `~/.claude/skills/`), different extensions
(`foo.md` vs `foo.yaml`) in the shared agents directory — so the later
install adds a second file rather than replacing the first.  The
installed-agents reader then collapses the two files into the single entry
`foo` whose path is the epic `.md` file, and the overwrite-skip check keys
on the base name, so with `force=false` a prior install under either
extension makes the attempt a skipped no-op that changes nothing. -/
theorem namespace_collision_distinct_files (c1 c2 : String) :
    add_agent (collisionAgentEnvWith c1 c2) (some "epic/foo") false none true =
      Except.ok ⟨⟨some [⟨"foo", ".yaml", c1⟩], some [⟨"foo", ".md", c2⟩],
        some [⟨"foo", ".md", c2⟩]⟩, 0,
        ["[green]Added \x27foo\x27 to foo.md[/green]"]⟩ ∧
    add_agent ⟨some [⟨"foo", ".yaml", c1⟩], some [⟨"foo", ".md", c2⟩],
        some [⟨"foo", ".md", c2⟩]⟩ (some "foo") false none true =
      Except.ok ⟨⟨some [⟨"foo", ".yaml", c1⟩], some [⟨"foo", ".md", c2⟩],
        some [⟨"foo", ".md", c2⟩, ⟨"foo", ".yaml", c1⟩]⟩, 0,
        ["[green]Added \x27foo\x27 to foo.yaml[/green]"]⟩ ∧
    add_agent ⟨some [⟨"foo", ".yaml", c1⟩], some [⟨"foo", ".md", c2⟩],
        some [⟨"foo", ".md", c2⟩]⟩ (some "foo") false none false =
      Except.ok ⟨⟨some [⟨"foo", ".yaml", c1⟩], some [⟨"foo", ".md", c2⟩],
        some [⟨"foo", ".md", c2⟩]⟩, 0,
        ["[yellow]\x27foo\x27 already installed (use --force to overwrite)[/yellow]"]⟩ ∧
    get_installed_agents ⟨some [⟨"foo", ".yaml", c1⟩], some [⟨"foo", ".md", c2⟩],
        some [⟨"foo", ".md", c2⟩, ⟨"foo", ".yaml", c1⟩]⟩ =
      [("foo", ⟨"foo", ".md", c2⟩)] ∧
    add_skill (collisionSkillEnvWith c1 c2) (some "epic/foo") none true =
      ⟨⟨some [⟨"foo", ".md", c1⟩], some [⟨"foo", ".md", c2⟩], some [], some [],
        some [⟨"foo", ".md", c2⟩]⟩, 0,
       ["[green]Added \x27foo\x27 to ~/.claude/commands/[/green]"]⟩ ∧
    add_skill (collisionSkillEnvWith c1 c2) (some "foo") none true =
      ⟨⟨some [⟨"foo", ".md", c1⟩], some [⟨"foo", ".md", c2⟩], some [],
        some [⟨"foo", ".md", c1⟩], some []⟩, 0,
       ["[green]Added \x27foo\x27 to ~/.claude/skills/[/green]"]⟩ :=
  ⟨rfl, rfl, rfl, rfl, rfl, rfl⟩

theorem length_insertSorted {α : Type} (le : α → α → Bool) (a : α) (l : List α) :
    (insertSorted le a l).length = l.length + 1 := by
  induction l with
  | nil => rfl
  | cons b bs ih =>
    by_cases h : le a b
    · simp [insertSorted, h]
    · simp [insertSorted, h, ih]

theorem length_sortBy {α : Type} (le : α → α → Bool) (l : List α) :
    (sortBy le l).length = l.length := by
  induction l with
  | nil => rfl
  | cons a as ih => simp [sortBy, length_insertSorted, ih]

/-- If the config load of any one listed agent fails, the whole row loop of
the agents listing fails. -/
theorem agent_rows_error (yamlLoad : YamlLoad) (installed : Dict File)
    (l : Dict File) (p : String × File) (e : String)
    (hp : p ∈ l) (he : load_agent_config yamlLoad p.2 = Except.error e) :
    ∃ e', agent_rows yamlLoad installed l = Except.error e' := by
  induction l with
  | nil => simp at hp
  | cons q rest ih =>
    cases hq : load_agent_config yamlLoad q.2 with
    | error e' => exact ⟨e', by simp [agent_rows, hq]⟩
    | ok config =>
      rcases List.mem_cons.mp hp with rfl | hp'
      · rw [he] at hq
        cases hq
      · rcases ih hp' with ⟨e', he'⟩
        refine ⟨e', ?_⟩
        simp [agent_rows, hq, he']

/-- C4 (counterexample): a malformed-YAML failure while extracting one
bundled agent description aborts the whole agents listing instead of
degrading: `load_agent_config` is called with no handler, so the first
malformed item turns the listing into the propagated parse error and the
well-formed `good` agent is never listed. -/
theorem malformed_yaml_aborts_agent_listing_counterexample :
    list_agents_bundled_rows failingYamlLoad malformedAgentEnv =
      Except.error "yaml.scanner.ScannerError" := rfl

/-- C4 (amended): the two listing families differ.  In the skill listing a
frontmatter whose YAML fails to parse degrades to an empty description and
the listing still renders one row per catalog item; in the agents listing
a failing item makes the whole row loop fail (no row of any item
survives). -/
theorem skill_listing_degrades_agent_listing_aborts (yamlLoad : YamlLoad)
    (env : SkillEnv) (content a fm b e : String)
    (hstart : pyStartsWith content "---" = true)
    (hsplit : pySplit2 "---" content = [a, fm, b])
    (hfail : yamlLoad fm = Except.error e)
    (envA : AgentEnv) (p : String × File) (ea : String)
    (hp : p ∈ pySortedItems (get_bundled_agents envA))
    (hea : load_agent_config yamlLoad p.2 = Except.error ea) :
    skill_desc yamlLoad content = "" ∧
    (list_skills_epic_rows yamlLoad env).length =
      (get_epic_skills env).length ∧
    ∃ e', list_agents_bundled_rows yamlLoad envA = Except.error e' := by
  refine ⟨?_, ?_, ?_⟩
  · simp [skill_desc, hstart, hsplit, hfail]
  · simp [list_skills_epic_rows, pySortedItems, length_sortBy]
  · exact agent_rows_error yamlLoad (get_installed_agents envA) _ p ea hp hea

/-- Witness for the amended statement of C4: the malformed frontmatter document
inside an epic skill and the malformed bundled agent. -/
theorem skill_listing_degrades_agent_listing_aborts_witness :
    skill_desc failingYamlLoad "---description: [unclosed---body" = "" ∧
    (list_skills_epic_rows failingYamlLoad malformedSkillEnv).length =
      (get_epic_skills malformedSkillEnv).length ∧
    ∃ e', list_agents_bundled_rows failingYamlLoad malformedAgentEnv =
      Except.error e' :=
  skill_listing_degrades_agent_listing_aborts failingYamlLoad malformedSkillEnv
    "---description: [unclosed---body" "" "description: [unclosed" "body"
    "yaml.scanner.ScannerError" (by decide) (by decide) rfl
    malformedAgentEnv ("broken", ⟨"broken", ".yaml", "description: [unclosed"⟩)
    "yaml.scanner.ScannerError" (by decide) rfl

end Asutils
